import Mathlib

/-!
Verification of the GeoscienceAustralia/fetch scheduling and atomic-fetch
pipeline.  The Python sources (src/fetch/_core.py, src/fetch/auto.py,
src/fetch/http.py) are shallowly embedded: the filesystem is an association
list from path to file size, reporter callbacks are an event list, Python
exceptions are modelled with Except, and floats (epoch times, delays) are
modelled by rationals.
-/

namespace Fetch

/-- Reporter callbacks (`ResultHandler` in src/fetch/_core.py): `file_error`
and `file_complete` invocations recorded in order. -/
inductive Event where
  | fileError (uri summary body : String)
  | fileComplete (uri path : String)
deriving DecidableEq, Repr

/-- Filesystem model: association list mapping a path to the size in bytes of
the regular file stored there. -/
abbrev FileSys := List (String × Nat)

/-- Model of `os.path.exists`. -/
def fsExists (fs : FileSys) (p : String) : Bool :=
  fs.any (fun e => e.1 == p)

/-- Model of `os.path.getsize`. -/
def fsSize (fs : FileSys) (p : String) : Nat :=
  (((fs.find? (fun e => e.1 == p)).map Prod.snd)).getD 0

/-- Model of `os.remove`. -/
def fsRemove (fs : FileSys) (p : String) : FileSys :=
  fs.filter (fun e => !(e.1 == p))

/-- Writing a file of the given size (used for `fetch_fn` writing its temp
file). -/
def fsWrite (fs : FileSys) (p : String) (sz : Nat) : FileSys :=
  (p, sz) :: fsRemove fs p

/-- Model of `os.rename src dst`. -/
def fsRename (fs : FileSys) (src dst : String) : FileSys :=
  fsWrite (fsRemove fs src) dst (fsSize fs src)

/-- `str.startswith`, computed on the character lists. -/
def strStartsWith (s p : String) : Bool := p.data.isPrefixOf s.data

/-- `str.endswith`, computed on the character lists. -/
def strEndsWith (s p : String) : Bool := p.data.isSuffixOf s.data

/-- Model of `os.path.join` for the two-argument uses in `fetch_file`. -/
def pathJoin (a b : String) : String :=
  if strStartsWith b "/" then b
  else if a == "" || strEndsWith a "/" then a ++ b
  else a ++ "/" ++ b

/-- State threaded through a fetch: the filesystem plus the reporter events
emitted so far. -/
structure FetchState where
  fs : FileSys
  events : List Event
deriving DecidableEq, Repr

/-- `FilenameTransform` contract (src/fetch/_core.py): rewrite of the output
directory (given the source filename) and of the filename itself. -/
structure FilenameTransform where
  transform_filename : String → String
  transform_output_path : String → String → String

/-- The effective target directory computed at the top of `fetch_file`: the
directory transform runs first and receives the original source filename. -/
def effTargetDir (tr : Option FilenameTransform) (target_dir target_filename : String) : String :=
  match tr with
  | some t => t.transform_output_path target_dir target_filename
  | none => target_dir

/-- The effective target filename computed at the top of `fetch_file`. -/
def effTargetName (tr : Option FilenameTransform) (target_filename : String) : String :=
  match tr with
  | some t => t.transform_filename target_filename
  | none => target_filename

/-- The protocol-specific download callback: it receives the temp path and the
current state, and returns the new state plus its success boolean.  It may
write the temp file and emit reporter events (as `do_fetch` in http.py does). -/
abbrev FetchFn := String → FetchState → FetchState × Bool

/-- The finally-block of `fetch_file`: if the temp path still exists, delete
it. -/
def fetchCleanup (t : String) (s : FetchState) : FetchState :=
  if fsExists s.fs t then { s with fs := fsRemove s.fs t } else s

/-- Shallow embedding of `fetch_file` (src/fetch/_core.py lines 252-326).
`tmpName` stands for the fresh path produced by `tempfile.mktemp` (which
creates no file).  The second component of the result is the Python return
value of the function: it has no `return <value>` statement on any path, so
it is always `none` (Python `None`). -/
def fetch_file (uri : String) (fetch_fn : FetchFn)
    (target_filename target_dir : String)
    (filename_transform : Option FilenameTransform)
    (override_existing : Bool) (tmpName : String)
    (s : FetchState) : FetchState × Option Bool :=
  let target_dir' := effTargetDir filename_transform target_dir target_filename
  let target_filename' := effTargetName filename_transform target_filename
  let target_path := pathJoin target_dir' target_filename'
  if fsExists s.fs target_path && !override_existing then
    (s, none)
  else
    -- mkdirs(dirname(target_path)) affects only directories, which the
    -- file-map model does not track.
    let t := tmpName
    let r := fetch_fn t s
    let s1 := r.1
    let was_success := r.2
    if !was_success then
      (fetchCleanup t s1, none)
    else if !fsExists s1.fs t then
      (fetchCleanup t { s1 with events := s1.events ++ [Event.fileError uri "No file" ""] }, none)
    else if fsSize s1.fs t == 0 then
      (fetchCleanup t { s1 with events := s1.events ++ [Event.fileError uri "Empty file" ""] }, none)
    else
      (fetchCleanup t
        { fs := fsRename s1.fs t target_path,
          events := s1.events ++ [Event.fileComplete uri target_path] }, none)

/-- Python truthiness of the value returned by `fetch_file` (always `None`)
as used in the condition `if did_succeed or ...` of `_fetch_files`. -/
def optTruthy : Option Bool → Bool
  | none => false
  | some b => b

/-- The per-URL retry loop of `_HttpBaseSource._fetch_files`
(src/fetch/http.py lines 206-222), started with `attempt_count = 0`.
Returns the final state, the number of `fetch_file` calls made for this URL,
and the list of `time.sleep` durations (seconds) in order. -/
def fetchAttemptLoop (retry_count : Nat) (retry_delay_seconds : ℚ)
    (uri : String) (fetch_fn : FetchFn)
    (target_filename target_dir : String)
    (filename_transform : Option FilenameTransform)
    (override_existing : Bool) (tmpName : String)
    (attempt_count : Nat) (s : FetchState) :
    FetchState × Nat × List ℚ :=
  let r := fetch_file uri fetch_fn target_filename target_dir
    filename_transform override_existing tmpName s
  if optTruthy r.2 || decide (attempt_count > retry_count) then
    (r.1, 1, [])
  else
    let rest := fetchAttemptLoop retry_count retry_delay_seconds uri fetch_fn
      target_filename target_dir filename_transform override_existing tmpName
      (attempt_count + 1) r.1
    (rest.1, rest.2.1 + 1, retry_delay_seconds * (attempt_count + 1) :: rest.2.2)
termination_by retry_count + 1 - attempt_count
decreasing_by
  simp only [Bool.or_eq_true, decide_eq_true_eq, not_or, not_lt] at *
  omega

/-- Shallow embedding of `_HttpBaseSource._fetch_files`
(src/fetch/http.py lines 181-222): run the retry loop once per
(url, target_name) pair.  `do_fetch` is the closure defined inside the
method, parameterised here by the current url.  Returns the final state plus,
per url in order, the number of `fetch_file` calls and the sleeps taken. -/
def fetch_files (retry_count : Nat) (retry_delay_seconds : ℚ)
    (do_fetch : String → FetchFn) (target_dir : String)
    (filename_transform : Option FilenameTransform)
    (override_existing : Bool) (tmpNames : String → String)
    (urls_filenames : List (String × String)) (s : FetchState) :
    FetchState × List (Nat × List ℚ) :=
  urls_filenames.foldl
    (fun acc uf =>
      let r := fetchAttemptLoop retry_count retry_delay_seconds uf.1
        (do_fetch uf.1) uf.2 target_dir filename_transform override_existing
        (tmpNames uf.1) 0 acc.1
      (r.1, acc.2 ++ [r.2]))
    (s, [])

/-! Date-range source (src/fetch/_core.py lines 329-445).  A datetime is
modelled by its UTC day number (an integer); the `strftime` renderings of a
day are abstracted by a `Strftime` record since they are library behaviour. -/

/-- Abstract `strftime` renderings for a day number: `%Y`, `%m`, `%d`, `%j`. -/
structure Strftime where
  year : Int → String
  month : Int → String
  day : Int → String
  julday : Int → String

/-- The substitution map built for each day in `DateRangeSource.trigger`. -/
structure DateParams where
  year : String
  month : String
  day : String
  julday : String
  date : Int
deriving DecidableEq, Repr

/-- The `date_params` dict for a given day number. -/
def mkDateParams (st : Strftime) (d : Int) : DateParams :=
  { year := st.year d, month := st.month d, day := st.day d,
    julday := st.julday d, date := d }

/-- Shallow embedding of `_date_range(from_days_from_now, to_days_from_now)`
(src/fetch/_core.py lines 329-348): `today` is the current UTC day number;
the Python `range(days + 1)` is empty when `days + 1 <= 0`. -/
def date_range (from_days_from_now to_days_from_now today : Int) : List Int :=
  (List.range (to_days_from_now - from_days_from_now + 1).toNat).map
    (fun n : Nat => today + from_days_from_now + (n : Int))

/-- The inner source's configurable fields: its property dict
(`setattr(self.using, name, value)` updates one entry). -/
abbrev Props := List (String × String)

/-- Model of `setattr` on the inner source's property dict. -/
def setProp (props : Props) (name value : String) : Props :=
  if props.any (fun p => p.1 == name) then
    props.map (fun p => if p.1 == name then (name, value) else p)
  else
    props ++ [(name, value)]

/-- Model of reading a property of the inner source. -/
def getProp (props : Props) (name : String) : Option String :=
  (props.find? (fun p => p.1 == name)).map Prod.snd

/-- One iteration of the inner loop of `DateRangeSource.trigger`: format each
configured pattern with the day's substitution map and set the corresponding
field on the inner source.  `fmt` abstracts Python's `str.format(**date_params)`. -/
def applyOverrides (overridden_properties : List (String × String))
    (fmt : String → DateParams → String) (dp : DateParams) (inner : Props) : Props :=
  overridden_properties.foldl (fun pr np => setProp pr np.1 (fmt np.2 dp)) inner

/-- The sequence of inner-source property dicts seen by successive inner
`trigger` calls, starting from `pr` and applying the overrides for each day in
turn (specification helper for reasoning about the trigger fold). -/
def triggerLog (overridden_properties : List (String × String))
    (fmt : String → DateParams → String) (st : Strftime)
    (ds : List Int) (pr : Props) : List Props :=
  match ds with
  | [] => []
  | d :: rest =>
    let pr' := applyOverrides overridden_properties fmt (mkDateParams st d) pr
    pr' :: triggerLog overridden_properties fmt st rest pr'

/-- `DateRangeSource` configuration (src/fetch/_core.py lines 403-422): the
inner source is represented by its property dict. -/
structure DateRangeSource where
  overridden_properties : List (String × String)
  start_day : Int
  end_day : Int

/-- Shallow embedding of `DateRangeSource.trigger` (src/fetch/_core.py lines
424-445).  Returns the final inner-source property dict together with the log
of inner `trigger` invocations: for each one, the inner source's property
dict at the moment `self.using.trigger(reporter)` is called. -/
def DateRangeSource.trigger (src : DateRangeSource) (st : Strftime)
    (fmt : String → DateParams → String) (today : Int) (inner : Props) :
    Props × List Props :=
  (date_range src.start_day src.end_day today).foldl
    (fun acc d =>
      let inner' := applyOverrides src.overridden_properties fmt (mkDateParams st d) acc.1
      (inner', acc.2 ++ [inner']))
    (inner, [])

/-! Schedule and supervisor loop (src/fetch/auto.py).  The heap entries are
`(next_trigger, scheduled_item)` tuples; epoch seconds (Python floats) are
modelled by rationals and a `ScheduledItem` by an identity number.  Python 3
comparison semantics are embedded: `ScheduledItem` (via `SimpleObject`)
defines `__eq__` but no ordering, so `<` between two distinct items raises
TypeError, and tuple comparison only reaches the items when the times are
equal. -/

/-- Python exceptions that the scheduling code can raise. -/
inductive PyErr where
  | typeError
  | indexError
deriving DecidableEq, Repr

/-- A heap entry: the tuple `(next_trigger, scheduled_item)`. -/
structure Entry where
  time : ℚ
  item : Nat
deriving DecidableEq, Repr

/-- Placeholder entry for list reads that CPython's heap invariants keep in
bounds. -/
def dfltEntry : Entry := { time := 0, item := 0 }

/-- Python 3 `<` on `(float, ScheduledItem)` tuples: lexicographic; when the
times are equal it falls back to comparing the items, which raises TypeError
unless they are equal (`SimpleObject.__eq__` compares the instance dicts). -/
def entryLt (a b : Entry) : Except PyErr Bool :=
  if a.time == b.time then
    if a.item == b.item then .ok false
    else .error .typeError
  else .ok (decide (a.time < b.time))

/-- CPython `heapq._siftdown` loop (`while pos > startpos`), acting on the
list with the new item conceptually at `pos`. -/
def siftdownLoop (heap : List Entry) (startpos pos : Nat) (newitem : Entry) :
    Except PyErr (List Entry) :=
  if startpos < pos then
    let parentpos := (pos - 1) / 2
    let parent := heap.getD parentpos dfltEntry
    match entryLt newitem parent with
    | .error e => .error e
    | .ok true => siftdownLoop (heap.set pos parent) startpos parentpos newitem
    | .ok false => .ok (heap.set pos newitem)
  else
    .ok (heap.set pos newitem)
termination_by pos
decreasing_by
  have : (pos - 1) / 2 ≤ pos - 1 := Nat.div_le_self _ _
  omega

/-- CPython `heapq.heappush`: append, then sift down from the last slot. -/
def heappush (heap : List Entry) (item : Entry) : Except PyErr (List Entry) :=
  siftdownLoop (heap ++ [item]) 0 heap.length item

/-- CPython `heapq._siftup` main loop: bubble the smaller child up until
reaching a leaf; returns the modified list and the final position. -/
def siftupLoop (heap : List Entry) (pos : Nat) :
    Except PyErr (List Entry × Nat) :=
  let endpos := heap.length
  let childpos := 2 * pos + 1
  if h : childpos < endpos then
    let rightpos := childpos + 1
    if hr : rightpos < endpos then
      match entryLt (heap.getD childpos dfltEntry) (heap.getD rightpos dfltEntry) with
      | .error e => .error e
      | .ok b =>
        let c := if b then childpos else rightpos
        siftupLoop (heap.set pos (heap.getD c dfltEntry)) c
    else
      siftupLoop (heap.set pos (heap.getD childpos dfltEntry)) childpos
  else
    .ok (heap, pos)
termination_by heap.length - pos
decreasing_by
  · simp only [List.length_set]
    split <;> omega
  · simp only [List.length_set]
    omega

/-- CPython `heapq._siftup`: save `heap[pos]`, run the child-promotion loop,
write the saved item at the final position, then `_siftdown` back up. -/
def heapSiftup (heap : List Entry) (pos : Nat) : Except PyErr (List Entry) :=
  let newitem := heap.getD pos dfltEntry
  match siftupLoop heap pos with
  | .error e => .error e
  | .ok r => siftdownLoop (r.1.set r.2 newitem) pos r.2 newitem

/-- CPython `heapq.heappop`: `heap.pop()` raises IndexError on an empty list;
otherwise move the last element to the root and sift up. -/
def heappop (heap : List Entry) : Except PyErr (Entry × List Entry) :=
  match heap.getLast? with
  | none => .error .indexError
  | some lastelt =>
    let rest := heap.dropLast
    if rest.isEmpty then
      .ok (lastelt, [])
    else
      let returnitem := rest.headD dfltEntry
      match heapSiftup (rest.set 0 lastelt) 0 with
      | .error e => .error e
      | .ok h3 => .ok (returnitem, h3)

/-- `Schedule.peek_next` (src/fetch/auto.py lines 313-318): `self.schedule[0]`
raises IndexError on an empty list. -/
def peek_next (schedule : List Entry) : Except PyErr Entry :=
  match schedule with
  | [] => .error .indexError
  | e :: _ => .ok e

/-- `Schedule.add_item` (src/fetch/auto.py lines 327-341): compute the next
cron trigger after `base_date` and push `(next_trigger, item)`.  `cronNext`
abstracts `croniter(pattern, start_time).get_next()` per item. -/
def add_item (cronNext : Nat → ℚ → ℚ) (schedule : List Entry) (item : Nat)
    (base_date : ℚ) : Except PyErr (List Entry × ℚ) :=
  let next_trigger := cronNext item base_date
  match heappush schedule { time := next_trigger, item := item } with
  | .error e => .error e
  | .ok h => .ok (h, next_trigger)

/-- Python truthiness of a `Schedule` instance, as tested by
`if not o.schedule:` in `run_loop` (src/fetch/auto.py line 519).  The class
defines neither `__bool__` nor `__len__`, so a `Schedule` object is truthy
regardless of how many entries its heap holds. -/
def scheduleTruthy (schedule : List Entry) : Bool := true

/-- What one iteration of `run_loop` did after reaping children. -/
inductive LoopEffect where
  | sleep (seconds : ℚ)
  | spawned (entry : Entry) (next_trigger : ℚ)
deriving DecidableEq, Repr

/-- Shallow embedding of the scheduling part of one `run_loop` iteration
(src/fetch/auto.py lines 519-563): the empty-schedule truthiness test, then
peek; if `scheduled_time < now` pop the entry, spawn a worker for it and
reschedule the item against `now`, else sleep `(scheduled_time - now) + 0.1`
seconds. -/
def runLoopIter (cronNext : Nat → ℚ → ℚ) (schedule : List Entry) (now : ℚ) :
    Except PyErr (List Entry × LoopEffect) :=
  if !scheduleTruthy schedule then
    .ok (schedule, .sleep 500)
  else
    match peek_next schedule with
    | .error e => .error e
    | .ok e =>
      if e.time < now then
        match heappop schedule with
        | .error er => .error er
        | .ok p =>
          match add_item cronNext p.2 p.1.item now with
          | .error er => .error er
          | .ok r => .ok (r.1, .spawned p.1 r.2)
      else
        .ok (schedule, .sleep (e.time - now + 1 / 10))

/-! Worker process (src/fetch/auto.py `ScheduledProcess.run`, lines 136-199,
and `_attempt_lock`, lines 36-56). -/

/-- Exceptions escaping `source.trigger`. -/
inductive TriggerExc where
  | remoteFetch
  | other
deriving DecidableEq, Repr

/-- `_attempt_lock`: `fcntl.lockf(LOCK_EX | LOCK_NB)` raises IOError exactly
when another process holds the lock, in which case the function returns
False. -/
def attempt_lock (lockHeldByOther : Bool) : Bool :=
  !lockHeldByOther

/-- Observable outcome of a worker run: its exit code, whether
`source.trigger` was invoked, the reporter events emitted, and the resulting
destination tree. -/
structure WorkerOutcome where
  exit_code : Int
  triggered : Bool
  events : List Event
  fs : FileSys
deriving DecidableEq, Repr

/-- Shallow embedding of `ScheduledProcess.run`: if the lock cannot be taken,
`sys.exit(0)` before anything else; otherwise run `source.trigger` (an
arbitrary state transformer possibly ending in an exception), exiting 1 on
`RemoteFetchException` and non-zero (the multiprocessing exit code for an
uncaught exception, 1) on any other exception. -/
def scheduledProcessRun (lockHeldByOther : Bool)
    (trigger : FileSys → FileSys × List Event × Option TriggerExc)
    (fs : FileSys) : WorkerOutcome :=
  if !attempt_lock lockHeldByOther then
    { exit_code := 0, triggered := false, events := [], fs := fs }
  else
    let r := trigger fs
    match r.2.2 with
    | none => { exit_code := 0, triggered := true, events := r.2.1, fs := r.1 }
    | some .remoteFetch => { exit_code := 1, triggered := true, events := r.2.1, fs := r.1 }
    | some .other => { exit_code := 1, triggered := true, events := r.2.1, fs := r.1 }

/-! HTTP listing source (src/fetch/http.py `HttpListingSource.trigger_url`,
lines 271-329). -/

/-- An `<a>` element of the parsed listing page: `text` is `anchor.text`
(possibly absent) and `href` is the attribute (possibly absent). -/
structure Anchor where
  text : Option String
  href : Option String

/-- An HTTP response: status code, body text, final URL after redirects, and
the anchors of the parsed HTML body. -/
structure HttpResponse where
  status_code : Nat
  text : String
  url : String
  anchors : List Anchor

/-- The `RemoteFetchException` payload. -/
structure RemoteFetchException where
  summary : String
  detailed : String
deriving DecidableEq, Repr

/-- Python truthiness of `anchor.text` as tested by `if not name:`. -/
def nameTruthy : Option String → Bool
  | none => false
  | some s => !(s == "")

/-- The anchor-filtering loop of `trigger_url`: skip anchors without an href,
with falsy text, whose href does not end with the text, or whose text does
not match the configured regex (`nameMatches` abstracts
`re.match(self.name_pattern, name)`); keep `(urljoin(final_url, href), name)`. -/
def listingUrlsNames (urljoin : String → String → String)
    (nameMatches : String → Bool) (final_url : String)
    (anchors : List Anchor) : List (String × String) :=
  anchors.foldl
    (fun acc a =>
      match a.href with
      | none => acc
      | some href =>
        match a.text with
        | none => acc
        | some name =>
          if name == "" then acc
          else if !strEndsWith href name then acc
          else if !nameMatches name then acc
          else acc ++ [(urljoin final_url href, name)])
    []

/-- Shallow embedding of `HttpListingSource.trigger_url` (src/fetch/http.py
lines 271-329).  On 404 return silently; on any other non-200 status raise
`RemoteFetchException("Status code %r" % status, url + body)`; on 200 build
the filtered (url, name) list against the final response URL and hand it to
`_fetch_files` (with the default `override_existing = False`). -/
def trigger_url (retry_count : Nat) (retry_delay_seconds : ℚ)
    (do_fetch : String → FetchFn) (target_dir : String)
    (filename_transform : Option FilenameTransform)
    (urljoin : String → String → String) (nameMatches : String → Bool)
    (tmpNames : String → String) (url : String) (res : HttpResponse)
    (s : FetchState) : Except RemoteFetchException FetchState :=
  if res.status_code == 404 then
    .ok s
  else if !(res.status_code == 200) then
    .error { summary := "Status code " ++ toString res.status_code,
             detailed := url ++ "\n\n" ++ res.text }
  else
    let urls_names := listingUrlsNames urljoin nameMatches res.url res.anchors
    .ok (fetch_files retry_count retry_delay_seconds do_fetch target_dir
      filename_transform false tmpNames urls_names s).1

/-! Theorems. -/

/-- Claim C7: when a filename transform is present, `fetch_file` first applies
the directory transform to the target directory, passing the original
(untransformed) source filename, and only then applies the filename transform;
equivalently, the call behaves exactly like a transform-free call whose
directory and filename were pre-transformed in that order. -/
theorem fetch_file_transform_order (uri : String) (fn : FetchFn)
    (name dir : String) (tr : FilenameTransform) (ov : Bool) (tmp : String)
    (s : FetchState) :
    fetch_file uri fn name dir (some tr) ov tmp s =
      fetch_file uri fn (tr.transform_filename name)
        (tr.transform_output_path dir name) none ov tmp s := rfl

/-- Claim C8: if the (transformed) target path already exists and
`override_existing` is false, `fetch_file` returns at once: the state
(filesystem and reporter events) is unchanged and the result does not depend
on `fetch_fn`, so the download callback is never invoked. -/
theorem fetch_file_skips_existing (uri : String) (fn : FetchFn)
    (name dir : String) (tr : Option FilenameTransform) (tmp : String)
    (s : FetchState)
    (hex : fsExists s.fs (pathJoin (effTargetDir tr dir name) (effTargetName tr name)) = true) :
    fetch_file uri fn name dir tr false tmp s = (s, none) := by
  unfold fetch_file
  simp [hex]

/-- Witness for claim C8 at a concrete input: the target `d/f` exists and the
call returns the state unchanged. -/
theorem fetch_file_skips_existing_witness :
    fsExists (FetchState.mk [("d/f", 3)] []).fs
      (pathJoin (effTargetDir none "d" "f") (effTargetName none "f")) = true ∧
    fetch_file "u" (fun _ st => (st, true)) "f" "d" none false ".fetch-0"
      (FetchState.mk [("d/f", 3)] []) = (FetchState.mk [("d/f", 3)] [], none) :=
  ⟨by decide,
   fetch_file_skips_existing "u" (fun _ st => (st, true)) "f" "d" none ".fetch-0"
     (FetchState.mk [("d/f", 3)] []) (by decide)⟩

/-- Claim C4: a worker whose non-blocking lock attempt fails (the lock is held
by another worker of the same rule) exits with code 0, never invokes
`source.trigger` (the outcome is independent of the trigger function), emits
no reporter events, and leaves the destination tree untouched. -/
theorem worker_lock_contention_exits_zero
    (trigger : FileSys → FileSys × List Event × Option TriggerExc)
    (fs : FileSys) :
    scheduledProcessRun true trigger fs =
      { exit_code := 0, triggered := false, events := [], fs := fs } := rfl

/-- Claim C3 (code behaviour at the failing input): with an empty schedule,
one `run_loop` iteration does not sleep 500 seconds — the `if not o.schedule:`
test is on a plain `Schedule` object, which is always truthy, so the loop
falls through to `peek_next` on the empty heap and raises IndexError. -/
theorem runLoopIter_empty_schedule_raises (cronNext : Nat → ℚ → ℚ) (now : ℚ) :
    runLoopIter cronNext [] now = .error .indexError := rfl

theorem fsExists_fsWrite_self (fs : FileSys) (p : String) (sz : Nat) :
    fsExists (fsWrite fs p sz) p = true := by
  simp [fsExists, fsWrite]

theorem fsSize_fsWrite_self (fs : FileSys) (p : String) (sz : Nat) :
    fsSize (fsWrite fs p sz) p = sz := by
  simp [fsSize, fsWrite, List.find?_cons]

theorem fsRemove_fsWrite_self (fs : FileSys) (p : String) (sz : Nat) :
    fsRemove (fsWrite fs p sz) p = fsRemove fs p := by
  simp only [fsRemove, fsWrite, List.filter_cons, beq_self_eq_true, Bool.not_true,
    Bool.false_eq_true, if_false, List.filter_filter, Bool.and_self]

theorem fsRemove_of_not_exists (fs : FileSys) (p : String)
    (h : fsExists fs p = false) : fsRemove fs p = fs := by
  unfold fsExists at h
  unfold fsRemove
  rw [List.filter_eq_self]
  intro a ha
  rw [List.any_eq_false] at h
  simpa using h a ha

/-- Claim C1: a `fetch_file` call whose `fetch_fn` runs, succeeds, and writes
an empty temp file ends with exactly one reporter event, namely
`file_error(uri, "Empty file", "")`; `file_complete` is never called; the
filesystem is left exactly as before, so no file appears at the target path
and the temp file has been deleted.  Hypotheses: the call reaches the
download (the target either does not exist or `override_existing` is set),
`fetch_fn` writes the temp path with size 0, succeeds and emits nothing, and
the temp path is fresh. -/
theorem fetch_file_empty_file (uri : String) (fn : FetchFn) (name dir : String)
    (tr : Option FilenameTransform) (ov : Bool) (tmp : String) (s : FetchState)
    (hrun : (fsExists s.fs (pathJoin (effTargetDir tr dir name) (effTargetName tr name)) && !ov) = false)
    (hfn : fn tmp s = ({ s with fs := fsWrite s.fs tmp 0 }, true))
    (hfresh : fsExists s.fs tmp = false) :
    fetch_file uri fn name dir tr ov tmp s =
      ({ s with events := s.events ++ [Event.fileError uri "Empty file" ""] }, none) := by
  unfold fetch_file fetchCleanup
  simp [hrun, hfn, fsExists_fsWrite_self, fsSize_fsWrite_self,
    fsRemove_fsWrite_self, fsRemove_of_not_exists s.fs tmp hfresh]

/-- Witness for claim C1 at a concrete input: empty initial filesystem, no
transform, a `fetch_fn` writing a zero-byte temp file. -/
theorem fetch_file_empty_file_witness :
    (fsExists (FetchState.mk [] []).fs
        (pathJoin (effTargetDir none "d" "f") (effTargetName none "f")) && !false) = false ∧
    fetch_file "u" (fun t st => ({ st with fs := fsWrite st.fs t 0 }, true)) "f" "d"
        none false "d/.fetch-0" (FetchState.mk [] []) =
      (FetchState.mk [] [Event.fileError "u" "Empty file" ""], none) :=
  ⟨rfl,
   fetch_file_empty_file "u" (fun t st => ({ st with fs := fsWrite st.fs t 0 }, true))
     "f" "d" none false "d/.fetch-0" (FetchState.mk [] []) rfl rfl rfl⟩

/-- The Python return value of `fetch_file` is `None` on every path (shared
helper). -/
theorem fetch_file_snd_none (uri : String) (fn : FetchFn) (name dir : String)
    (tr : Option FilenameTransform) (ov : Bool) (tmp : String) (s : FetchState) :
    (fetch_file uri fn name dir tr ov tmp s).2 = none := by
  unfold fetch_file
  dsimp only
  repeat' split
  all_goals rfl

/-- The per-URL retry loop, entered at `attempt_count = a`: with
`a + n = retry_count + 1` it performs `n + 1` calls to `fetch_file` and sleeps
`delay * k` for `k = a+1, ..., a+n` (shared helper). -/
theorem fetchAttemptLoop_spec (rc : Nat) (delay : ℚ) (uri : String)
    (fn : FetchFn) (name dir : String) (tr : Option FilenameTransform)
    (ov : Bool) (tmp : String) :
    ∀ (n a : Nat), a + n = rc + 1 → ∀ s : FetchState,
      (fetchAttemptLoop rc delay uri fn name dir tr ov tmp a s).2.1 = n + 1 ∧
      (fetchAttemptLoop rc delay uri fn name dir tr ov tmp a s).2.2 =
        (List.range' (a + 1) n 1).map (fun k : Nat => delay * (k : ℚ)) := by
  intro n
  induction n with
  | zero =>
    intro a ha s
    have hgt : a > rc := by omega
    rw [fetchAttemptLoop]
    have hcond : (optTruthy (fetch_file uri fn name dir tr ov tmp s).2
        || decide (a > rc)) = true := by
      simp [fetch_file_snd_none, optTruthy, hgt]
    simp [hcond]
  | succ m ih =>
    intro a ha s
    have hle : ¬(a > rc) := by omega
    rw [fetchAttemptLoop]
    have hcond : (optTruthy (fetch_file uri fn name dir tr ov tmp s).2
        || decide (a > rc)) = false := by
      simp [fetch_file_snd_none, optTruthy, hle]
    have h2 := ih (a + 1) (by omega) ((fetch_file uri fn name dir tr ov tmp s).1)
    simp only [hcond, Bool.false_eq_true, if_false]
    refine ⟨by simp [h2.1], ?_⟩
    simp only [h2.2, List.range'_succ, List.map_cons]
    push_cast
    ring_nf

/-- Claim C10: `fetch_file` has no `return <value>` statement, so it returns
`None` on every call; consequently the retry loop in
`_HttpBaseSource._fetch_files` never sees a truthy success value and, for
every URL, calls `fetch_file` exactly `retry_count + 2` times, sleeping
`retry_delay_seconds * attempt_count` for `attempt_count = 1, ...,
retry_count + 1` between attempts, regardless of whether the first fetch
completed. -/
theorem fetch_file_none_and_retry_exhaustion :
    (∀ (uri : String) (fn : FetchFn) (name dir : String)
        (tr : Option FilenameTransform) (ov : Bool) (tmp : String) (s : FetchState),
      (fetch_file uri fn name dir tr ov tmp s).2 = none) ∧
    (∀ (rc : Nat) (delay : ℚ) (do_fetch : String → FetchFn) (dir : String)
        (tr : Option FilenameTransform) (ov : Bool) (tmps : String → String)
        (urls : List (String × String)) (s : FetchState),
      (fetch_files rc delay do_fetch dir tr ov tmps urls s).2 =
        urls.map (fun _ => (rc + 2,
          (List.range' 1 (rc + 1) 1).map (fun k : Nat => delay * (k : ℚ))))) := by
  constructor
  · exact fetch_file_snd_none
  · intro rc delay do_fetch dir tr ov tmps urls s
    suffices h : ∀ (urls : List (String × String)) (s : FetchState)
        (acc : List (Nat × List ℚ)),
        (urls.foldl
          (fun acc uf =>
            let r := fetchAttemptLoop rc delay uf.1 (do_fetch uf.1) uf.2 dir tr ov
              (tmps uf.1) 0 acc.1
            (r.1, acc.2 ++ [r.2])) (s, acc)).2 =
          acc ++ urls.map (fun _ => (rc + 2,
            (List.range' 1 (rc + 1) 1).map (fun k : Nat => delay * (k : ℚ)))) by
      exact h urls s []
    intro urls
    induction urls with
    | nil => intro s acc; simp
    | cons u rest ih =>
      intro s acc
      simp only [List.foldl_cons, List.map_cons]
      rw [ih]
      have hs := fetchAttemptLoop_spec rc delay u.1 (do_fetch u.1) u.2 dir tr ov
        (tmps u.1) (rc + 1) 0 (by omega) s
      have hx : (fetchAttemptLoop rc delay u.1 (do_fetch u.1) u.2 dir tr ov
          (tmps u.1) 0 s).2 =
          (rc + 2, (List.range' 1 (rc + 1) 1).map (fun k : Nat => delay * (k : ℚ))) := by
        refine Prod.ext ?_ ?_
        · simpa using hs.1
        · simpa using hs.2
      rw [hx]
      simp

/-- Counterexample to claim C2 as stated: at `now` exactly equal to the head
entry's fire time, the iteration does not fire the entry; it sleeps 0.1
seconds, because the code's guard is the strict `scheduled_time < now`. -/
theorem runLoopIter_at_equality_sleeps :
    runLoopIter (fun _ _ => 200) [{ time := 100, item := 0 }] 100 =
      .ok ([{ time := 100, item := 0 }], .sleep (1 / 10)) := by
  norm_num [runLoopIter, peek_next, scheduleTruthy]

/-- Claim C5: `HttpListingSource.trigger_url` against a 404 index page
returns cleanly with the state (and hence the reporter events) unchanged;
against any other non-200 status it raises `RemoteFetchException` with the
status in the summary and the url and body in the detail. -/
theorem http_listing_status_dispatch (rc : Nat) (delay : ℚ)
    (do_fetch : String → FetchFn) (dir : String) (tr : Option FilenameTransform)
    (uj : String → String → String) (nm : String → Bool) (tmps : String → String)
    (url : String) (res : HttpResponse) (s : FetchState) :
    (res.status_code = 404 →
      trigger_url rc delay do_fetch dir tr uj nm tmps url res s = .ok s) ∧
    (res.status_code ≠ 200 → res.status_code ≠ 404 →
      trigger_url rc delay do_fetch dir tr uj nm tmps url res s =
        .error { summary := "Status code " ++ toString res.status_code,
                 detailed := url ++ "\n\n" ++ res.text }) := by
  constructor
  · intro h404
    unfold trigger_url
    simp [h404]
  · intro h200 h404
    have h1 : (res.status_code == 404) = false := by simp [h404]
    have h2 : (res.status_code == 200) = false := by simp [h200]
    unfold trigger_url
    simp [h1, h2]

/-- Witness for claim C5: a 404 response returns the state unchanged, and a
500 response raises with the formatted summary and detail. -/
theorem http_listing_status_dispatch_witness :
    ((404 : Nat) = 404 ∧
      trigger_url 3 5 (fun _ _ st => (st, true)) "d" none (fun _ h => h)
        (fun _ => true) (fun _ => ".fetch-0") "http://x/i"
        (HttpResponse.mk 404 "nf" "http://x/i" []) (FetchState.mk [] []) =
        .ok (FetchState.mk [] [])) ∧
    ((500 : Nat) ≠ 200 ∧ (500 : Nat) ≠ 404 ∧
      trigger_url 3 5 (fun _ _ st => (st, true)) "d" none (fun _ h => h)
        (fun _ => true) (fun _ => ".fetch-0") "http://x/i"
        (HttpResponse.mk 500 "boom" "http://x/i" []) (FetchState.mk [] []) =
        .error { summary := "Status code " ++ toString (500 : Nat),
                 detailed := "http://x/i" ++ "\n\n" ++ "boom" }) :=
  ⟨⟨rfl,
    (http_listing_status_dispatch 3 5 (fun _ _ st => (st, true)) "d" none
      (fun _ h => h) (fun _ => true) (fun _ => ".fetch-0") "http://x/i"
      (HttpResponse.mk 404 "nf" "http://x/i" []) (FetchState.mk [] [])).1 rfl⟩,
   ⟨by decide, by decide,
    (http_listing_status_dispatch 3 5 (fun _ _ st => (st, true)) "d" none
      (fun _ h => h) (fun _ => true) (fun _ => ".fetch-0") "http://x/i"
      (HttpResponse.mk 500 "boom" "http://x/i" []) (FetchState.mk [] [])).2
      (by decide) (by decide)⟩⟩

/-- Whatever `heappop` returns successfully on a non-empty heap, the popped
entry is the root `heap[0]` (shared helper). -/
theorem heappop_cons_fst (e : Entry) (rest : List Entry) (p : Entry × List Entry)
    (hp : heappop (e :: rest) = .ok p) : p.1 = e := by
  cases rest with
  | nil =>
    simp [heappop] at hp
    simp [← hp]
  | cons r0 rs =>
    unfold heappop at hp
    rw [List.getLast?_cons_cons] at hp
    cases hgl : (r0 :: rs).getLast? with
    | none => simp at hgl
    | some x =>
      rw [hgl] at hp
      simp only [List.dropLast_cons₂, List.isEmpty_cons, List.headD_cons,
        Bool.false_eq_true, if_false] at hp
      split at hp
      · exact absurd hp (by simp)
      · simp only [Except.ok.injEq] at hp
        rw [← hp]

/-- Claim C2 (amended): in a supervisor iteration with a non-empty schedule
the head entry fires only when its fire time is strictly before `now`: the
entry is popped (and it is the head), a worker is spawned for it, and its item
is rescheduled against `now`; when `now ≤ nextFireEpochSeconds` — including
`now` exactly equal — the supervisor sleeps `(nextFireEpochSeconds − now) +
0.1` seconds instead. -/
theorem runLoopIter_fire_and_sleep (cronNext : Nat → ℚ → ℚ) (e : Entry)
    (rest : List Entry) (now : ℚ) :
    (e.time < now → ∀ (p : Entry × List Entry) (r : List Entry × ℚ),
      heappop (e :: rest) = .ok p →
      add_item cronNext p.2 p.1.item now = .ok r →
      p.1 = e ∧
        runLoopIter cronNext (e :: rest) now = .ok (r.1, .spawned e r.2)) ∧
    (now ≤ e.time → runLoopIter cronNext (e :: rest) now =
      .ok (e :: rest, .sleep (e.time - now + 1 / 10))) := by
  constructor
  · intro hlt p r hp hr
    have hfst := heappop_cons_fst e rest p hp
    refine ⟨hfst, ?_⟩
    unfold runLoopIter
    simp only [scheduleTruthy, Bool.not_true, Bool.false_eq_true, if_false,
      peek_next]
    rw [if_pos hlt, hp]
    dsimp only
    rw [hr, hfst]
  · intro hge
    unfold runLoopIter
    simp only [scheduleTruthy, Bool.not_true, Bool.false_eq_true, if_false,
      peek_next]
    rw [if_neg (not_lt.mpr hge)]

theorem entryLt_of_time_lt (a b : Entry) (h : a.time < b.time) :
    entryLt a b = .ok true := by
  have hne : (a.time == b.time) = false := by
    simp only [beq_eq_false_iff_ne]
    exact ne_of_lt h
  simp [entryLt, hne, h]

theorem entryLt_of_time_gt (a b : Entry) (h : b.time < a.time) :
    entryLt a b = .ok false := by
  have hne : (a.time == b.time) = false := by
    simp only [beq_eq_false_iff_ne]
    exact ne_of_gt h
  simp [entryLt, hne, not_lt.mpr (le_of_lt h)]

theorem entryLt_typeError (a b : Entry) (ht : a.time = b.time)
    (hi : a.item ≠ b.item) : entryLt a b = .error .typeError := by
  simp [entryLt, ht, hi]

theorem heappush_nil (a : Entry) : heappush [] a = .ok [a] := by
  unfold heappush
  rw [siftdownLoop]
  simp

theorem heappush_pair (a b : Entry) :
    heappush [a] b =
      match entryLt b a with
      | .error e => .error e
      | .ok true => .ok [b, a]
      | .ok false => .ok [a, b] := by
  unfold heappush
  rw [siftdownLoop]
  cases hlt : entryLt b a with
  | error e => simp [hlt]
  | ok bb =>
    cases bb with
    | true =>
      simp only [hlt, List.length_singleton, List.singleton_append,
        Nat.lt_irrefl, zero_lt_one, if_true]
      rw [siftdownLoop]
      simp [hlt]
    | false => simp [hlt]

theorem heapSiftup_single (x : Entry) : heapSiftup [x] 0 = .ok [x] := by
  unfold heapSiftup
  rw [siftupLoop]
  simp only [List.length_singleton]
  norm_num
  rw [siftdownLoop]
  simp

theorem heappop_single (x : Entry) : heappop [x] = .ok (x, []) := by
  simp [heappop]

theorem heappop_pair (a b : Entry) : heappop [a, b] = .ok (a, [b]) := by
  unfold heappop
  simp [heapSiftup_single]

/-- Witness for claim C2 (amended): with head fire time 100, the iteration at
`now = 101` fires (pops the head, spawns it, reschedules to the cron's 160),
and the iteration at `now = 99` sleeps `(100 − 99) + 0.1` seconds. -/
theorem runLoopIter_fire_and_sleep_witness :
    ((100 : ℚ) < 101 ∧
      runLoopIter (fun _ _ => 160) [Entry.mk 100 7] 101 =
        .ok ([Entry.mk 160 7], .spawned (Entry.mk 100 7) 160)) ∧
    ((99 : ℚ) ≤ 100 ∧
      runLoopIter (fun _ _ => 160) [Entry.mk 100 7] 99 =
        .ok ([Entry.mk 100 7], .sleep (100 - 99 + 1 / 10))) := by
  have hpop : heappop [Entry.mk 100 7] = .ok (Entry.mk 100 7, []) :=
    heappop_single (Entry.mk 100 7)
  have hadd : add_item (fun _ _ => 160) [] 7 101 = .ok ([Entry.mk 160 7], 160) := by
    unfold add_item
    dsimp only
    rw [heappush_nil]
  have hlt : (100 : ℚ) < 101 := by norm_num
  have hle : (99 : ℚ) ≤ 100 := by norm_num
  refine ⟨⟨hlt, ?_⟩, ⟨hle, ?_⟩⟩
  · exact ((runLoopIter_fire_and_sleep (fun _ _ => 160) (Entry.mk 100 7) [] 101).1
      hlt (Entry.mk 100 7, []) ([Entry.mk 160 7], 160) hpop hadd).2
  · exact (runLoopIter_fire_and_sleep (fun _ _ => 160) (Entry.mk 100 7) [] 99).2 hle

/-- Counterexample to claim C9 as stated: pushing a second entry whose
`nextFireEpochSeconds` equals the root's raises TypeError, because the tuple
comparison falls through to comparing the two `ScheduledItem`s, which define
no ordering — so add/pop can fail for incomparable rules and there is no
insertion-order tie-breaking. -/
theorem heappush_equal_times_typeError :
    heappush [Entry.mk 5 0] (Entry.mk 5 1) = .error .typeError := by
  rw [heappush_pair]
  rw [entryLt_typeError (Entry.mk 5 1) (Entry.mk 5 0) rfl (by decide)]

/-- Claim C9 (amended): the Schedule heap is a min-heap on the
`(nextFireEpochSeconds, item)` tuples.  Two entries with distinct fire times
are pushed and popped without failure and pop earliest-first regardless of
insertion order; but two entries with equal fire times and distinct
(incomparable) items make the second push raise TypeError — tie-breaking by
insertion order does not exist. -/
theorem schedule_heap_ordering (t1 t2 : ℚ) (i1 i2 : Nat) :
    (t1 < t2 →
      heappush [] (Entry.mk t1 i1) = .ok [Entry.mk t1 i1] ∧
      heappush [Entry.mk t1 i1] (Entry.mk t2 i2) =
        .ok [Entry.mk t1 i1, Entry.mk t2 i2] ∧
      heappop [Entry.mk t1 i1, Entry.mk t2 i2] =
        .ok (Entry.mk t1 i1, [Entry.mk t2 i2]) ∧
      heappop [Entry.mk t2 i2] = .ok (Entry.mk t2 i2, [])) ∧
    (t1 < t2 →
      heappush [] (Entry.mk t2 i2) = .ok [Entry.mk t2 i2] ∧
      heappush [Entry.mk t2 i2] (Entry.mk t1 i1) =
        .ok [Entry.mk t1 i1, Entry.mk t2 i2]) ∧
    (t1 = t2 → i1 ≠ i2 →
      heappush [Entry.mk t1 i1] (Entry.mk t2 i2) = .error .typeError) := by
  refine ⟨?_, ?_, ?_⟩
  · intro h
    refine ⟨heappush_nil _, ?_, heappop_pair _ _, heappop_single _⟩
    rw [heappush_pair]
    rw [entryLt_of_time_gt (Entry.mk t2 i2) (Entry.mk t1 i1) h]
  · intro h
    refine ⟨heappush_nil _, ?_⟩
    rw [heappush_pair]
    rw [entryLt_of_time_lt (Entry.mk t1 i1) (Entry.mk t2 i2) h]
  · intro ht hi
    rw [heappush_pair]
    rw [entryLt_typeError (Entry.mk t2 i2) (Entry.mk t1 i1) ht.symm (by simpa using hi.symm)]

/-- Witness for claim C9 (amended): fire times 1 < 2 push and pop in time
order both ways, and equal fire times 5 = 5 with distinct items 0 ≠ 1 error. -/
theorem schedule_heap_ordering_witness :
    (heappush [Entry.mk 1 3] (Entry.mk 2 4) = .ok [Entry.mk 1 3, Entry.mk 2 4] ∧
      heappop [Entry.mk 1 3, Entry.mk 2 4] = .ok (Entry.mk 1 3, [Entry.mk 2 4])) ∧
    heappush [Entry.mk 2 4] (Entry.mk 1 3) = .ok [Entry.mk 1 3, Entry.mk 2 4] ∧
    heappush [Entry.mk 5 0] (Entry.mk 5 1) = .error .typeError := by
  have h12 : (1 : ℚ) < 2 := by norm_num
  refine ⟨⟨((schedule_heap_ordering 1 2 3 4).1 h12).2.1,
    ((schedule_heap_ordering 1 2 3 4).1 h12).2.2.1⟩,
    ((schedule_heap_ordering 1 2 3 4).2.1 h12).2,
    (schedule_heap_ordering 5 5 0 1).2.2 rfl (by decide)⟩

theorem find?_map_update (pr : Props) (n v : String)
    (hany : pr.any (fun p => p.1 == n) = true) :
    (((pr.map (fun p => if p.1 == n then (n, v) else p)).find?
      (fun p => p.1 == n)).map Prod.snd) = some v := by
  induction pr with
  | nil => simp at hany
  | cons p ps ih =>
    rw [List.map_cons]
    by_cases hp : (p.1 == n) = true
    · rw [if_pos hp]
      simp only [List.find?_cons, beq_self_eq_true]
      rfl
    · have hp' : (p.1 == n) = false := by simpa using hp
      rw [if_neg hp]
      simp only [List.find?_cons, hp']
      refine ih ?_
      rw [List.any_cons] at hany
      simpa [hp'] using hany

theorem find?_append_missing (pr : Props) (n v : String)
    (hany : pr.any (fun p => p.1 == n) = false) :
    (((pr ++ [(n, v)]).find? (fun p => p.1 == n)).map Prod.snd) = some v := by
  induction pr with
  | nil =>
    rw [List.nil_append]
    simp only [List.find?_cons, beq_self_eq_true]
    rfl
  | cons p ps ih =>
    rw [List.any_cons, Bool.or_eq_false_iff] at hany
    rw [List.cons_append]
    simp only [List.find?_cons, hany.1]
    exact ih hany.2

/-- After `setattr(inner, n, v)`, reading property `n` yields `v`. -/
theorem getProp_setProp_self (pr : Props) (n v : String) :
    getProp (setProp pr n v) n = some v := by
  unfold getProp setProp
  by_cases hany : pr.any (fun p => p.1 == n) = true
  · rw [if_pos hany]
    exact find?_map_update pr n v hany
  · rw [if_neg hany]
    exact find?_append_missing pr n v (by rwa [Bool.not_eq_true] at hany)

/-- `setattr(inner, n, v)` leaves every other property unchanged. -/
theorem getProp_setProp_ne (pr : Props) (n v m : String) (h : m ≠ n) :
    getProp (setProp pr n v) m = getProp pr m := by
  have hnm : (n == m) = false := by
    simp only [beq_eq_false_iff_ne]
    exact fun he => h he.symm
  unfold getProp setProp
  by_cases hany : pr.any (fun p => p.1 == n) = true
  · rw [if_pos hany]
    clear hany
    induction pr with
    | nil => rfl
    | cons p ps ih =>
      rw [List.map_cons]
      by_cases hp : (p.1 == n) = true
      · have hpm : (p.1 == m) = false := by
          simp only [beq_iff_eq] at hp
          simp only [beq_eq_false_iff_ne, hp]
          exact fun he => h he.symm
        rw [if_pos hp]
        simp only [List.find?_cons, hpm, hnm]
        exact ih
      · rw [if_neg hp]
        by_cases hm : (p.1 == m) = true
        · simp only [List.find?_cons, hm]
        · have hm' : (p.1 == m) = false := by simpa using hm
          simp only [List.find?_cons, hm']
          exact ih
  · rw [if_neg hany]
    clear hany
    induction pr with
    | nil =>
      rw [List.nil_append]
      simp only [List.find?_cons, hnm]
    | cons p ps ih =>
      rw [List.cons_append]
      by_cases hm : (p.1 == m) = true
      · simp only [List.find?_cons, hm]
      · have hm' : (p.1 == m) = false := by simpa using hm
        simp only [List.find?_cons, hm']
        exact ih

theorem applyOverrides_cons (q : String × String) (qs : List (String × String))
    (fmt : String → DateParams → String) (dp : DateParams) (pr : Props) :
    applyOverrides (q :: qs) fmt dp pr =
      applyOverrides qs fmt dp (setProp pr q.1 (fmt q.2 dp)) := rfl

/-- Setting a batch of overridden properties leaves an unrelated property
unchanged. -/
theorem getProp_applyOverrides_not_mem (P : List (String × String))
    (fmt : String → DateParams → String) (dp : DateParams) (name : String)
    (h : name ∉ P.map Prod.fst) :
    ∀ pr : Props, getProp (applyOverrides P fmt dp pr) name = getProp pr name := by
  induction P with
  | nil => intro pr; rfl
  | cons q qs ih =>
    intro pr
    simp only [List.map_cons, List.mem_cons, not_or] at h
    unfold applyOverrides at *
    rw [List.foldl_cons, ih h.2]
    exact getProp_setProp_ne pr q.1 (fmt q.2 dp) name h.1

/-- After one override pass, each configured property holds its pattern
formatted with the day's substitution map (property names assumed distinct,
as they are dict keys in the source). -/
theorem getProp_applyOverrides_mem (P : List (String × String))
    (fmt : String → DateParams → String) (dp : DateParams)
    (name pattern : String) (hnd : (P.map Prod.fst).Nodup)
    (hm : (name, pattern) ∈ P) :
    ∀ pr : Props,
      getProp (applyOverrides P fmt dp pr) name = some (fmt pattern dp) := by
  induction P with
  | nil => simp at hm
  | cons q qs ih =>
    intro pr
    simp only [List.map_cons, List.nodup_cons] at hnd
    rw [applyOverrides_cons]
    rcases List.mem_cons.mp hm with heq | hmem
    · have hq1 : q.1 = name := by rw [← heq]
      have hq2 : q.2 = pattern := by rw [← heq]
      rw [getProp_applyOverrides_not_mem qs fmt dp name (hq1 ▸ hnd.1), hq1, hq2]
      exact getProp_setProp_self pr name (fmt pattern dp)
    · exact ih hnd.2 hmem (setProp pr q.1 (fmt q.2 dp))

/-- The fold in `DateRangeSource.trigger` produces exactly the `triggerLog`
sequence of inner property dicts. -/
theorem trigger_snd_eq_triggerLog (src : DateRangeSource) (st : Strftime)
    (fmt : String → DateParams → String) (today : Int) (inner : Props) :
    (src.trigger st fmt today inner).2 =
      triggerLog src.overridden_properties fmt st
        (date_range src.start_day src.end_day today) inner := by
  unfold DateRangeSource.trigger
  suffices h : ∀ (ds : List Int) (pr : Props) (acc : List Props),
      (ds.foldl
        (fun acc d =>
          let inner' := applyOverrides src.overridden_properties fmt
            (mkDateParams st d) acc.1
          (inner', acc.2 ++ [inner']))
        (pr, acc)).2 =
        acc ++ triggerLog src.overridden_properties fmt st ds pr by
    simpa using h (date_range src.start_day src.end_day today) inner []
  intro ds
  induction ds with
  | nil => intro pr acc; simp [triggerLog]
  | cons d rest ih =>
    intro pr acc
    rw [List.foldl_cons, triggerLog]
    dsimp only
    rw [ih]
    simp

theorem triggerLog_length (P : List (String × String))
    (fmt : String → DateParams → String) (st : Strftime) :
    ∀ (ds : List Int) (pr : Props),
      (triggerLog P fmt st ds pr).length = ds.length := by
  intro ds
  induction ds with
  | nil => intro pr; rfl
  | cons d rest ih => intro pr; simp [triggerLog, ih]

theorem triggerLog_getProp (P : List (String × String))
    (fmt : String → DateParams → String) (st : Strftime)
    (name pattern : String) (hnd : (P.map Prod.fst).Nodup)
    (hm : (name, pattern) ∈ P) :
    ∀ (ds : List Int) (pr : Props) (i : Nat)
      (hi : i < (triggerLog P fmt st ds pr).length)
      (hd : i < ds.length),
      getProp ((triggerLog P fmt st ds pr).get ⟨i, hi⟩) name =
        some (fmt pattern (mkDateParams st (ds.get ⟨i, hd⟩))) := by
  intro ds
  induction ds with
  | nil => intro pr i hi hd; simp [triggerLog] at hi
  | cons d rest ih =>
    intro pr i hi hd
    cases i with
    | zero =>
      simp only [triggerLog, List.get]
      exact getProp_applyOverrides_mem P fmt (mkDateParams st d) name pattern
        hnd hm pr
    | succ j =>
      simp only [triggerLog, List.get]
      exact ih _ j _ (by simpa using hd)

/-- Claim C6: with `start_day ≤ end_day` (and the overridden property names
distinct, as dict keys are), `DateRangeSource.trigger` invokes the inner
source exactly `end_day − start_day + 1` times, the i-th invocation standing
for the UTC date `today + start_day + i`; at each invocation every configured
overridden property of the inner source holds its format string formatted
with that date's substitution map (`year`, `month`, `day`, `julday`,
`date`). -/
theorem date_range_source_trigger (src : DateRangeSource) (st : Strftime)
    (fmt : String → DateParams → String) (today : Int) (inner : Props)
    (h : src.start_day ≤ src.end_day)
    (hnd : (src.overridden_properties.map Prod.fst).Nodup) :
    (((src.trigger st fmt today inner).2.length : Int) =
      src.end_day - src.start_day + 1) ∧
    ∀ (i : Nat) (hi : i < (src.trigger st fmt today inner).2.length)
      (name pattern : String),
      (name, pattern) ∈ src.overridden_properties →
      getProp ((src.trigger st fmt today inner).2.get ⟨i, hi⟩) name =
        some (fmt pattern (mkDateParams st (today + src.start_day + i))) := by
  have hlen : (src.trigger st fmt today inner).2.length =
      (src.end_day - src.start_day + 1).toNat := by
    rw [trigger_snd_eq_triggerLog, triggerLog_length]
    simp only [date_range, List.length_map, List.length_range]
  constructor
  · rw [hlen]
    exact Int.toNat_of_nonneg (by omega)
  · intro i hi name pattern hm
    have hd : i < (date_range src.start_day src.end_day today).length := by
      simp only [date_range, List.length_map, List.length_range]
      omega
    have hi' : i < (triggerLog src.overridden_properties fmt st
        (date_range src.start_day src.end_day today) inner).length := by
      rw [triggerLog_length]
      exact hd
    have hgoal := triggerLog_getProp src.overridden_properties fmt st
      name pattern hnd hm (date_range src.start_day src.end_day today) inner
      i hi' hd
    have hdate : (date_range src.start_day src.end_day today).get ⟨i, hd⟩ =
        today + src.start_day + i := by
      simp [date_range]
    rw [hdate] at hgoal
    calc getProp ((src.trigger st fmt today inner).2.get ⟨i, hi⟩) name
        = getProp ((triggerLog src.overridden_properties fmt st
            (date_range src.start_day src.end_day today) inner).get ⟨i, hi'⟩)
            name := by
          congr 1
          exact List.get_of_eq (trigger_snd_eq_triggerLog src st fmt today inner) _
      _ = some (fmt pattern (mkDateParams st (today + src.start_day + i))) := hgoal

/-- Witness for claim C6: a concrete `DateRangeSource` with `start_day = -1`,
`end_day = 1` and one overridden property triggers the inner source exactly
3 times, and at the first invocation the property holds the pattern formatted
for the date `today + (-1)`. -/
theorem date_range_source_trigger_witness :
    (((-1 : Int) ≤ 1) ∧
      ((([("x", "P")] : List (String × String)).map Prod.fst).Nodup)) ∧
    ((((DateRangeSource.mk [("x", "P")] (-1) 1).trigger
        (Strftime.mk (fun d => toString d) (fun d => toString d)
          (fun d => toString d) (fun d => toString d))
        (fun pattern dp => pattern ++ dp.year) 10 []).2.length : Int) =
      1 - (-1) + 1) ∧
    getProp (((DateRangeSource.mk [("x", "P")] (-1) 1).trigger
        (Strftime.mk (fun d => toString d) (fun d => toString d)
          (fun d => toString d) (fun d => toString d))
        (fun pattern dp => pattern ++ dp.year) 10 []).2.getD 0 []) "x" =
      some ("P" ++ toString (10 + -1 + ((0 : Nat) : Int))) := by
  have main := date_range_source_trigger (DateRangeSource.mk [("x", "P")] (-1) 1)
    (Strftime.mk (fun d => toString d) (fun d => toString d)
      (fun d => toString d) (fun d => toString d))
    (fun pattern dp => pattern ++ dp.year) 10 [] (by decide) (by decide)
  have h0 : 0 < ((DateRangeSource.mk [("x", "P")] (-1) 1).trigger
      (Strftime.mk (fun d => toString d) (fun d => toString d)
        (fun d => toString d) (fun d => toString d))
      (fun pattern dp => pattern ++ dp.year) 10 []).2.length := by
    have h1 := main.1
    dsimp only at h1
    omega
  refine ⟨⟨by decide, by decide⟩, main.1, ?_⟩
  have hget := main.2 0 h0 "x" "P" (by decide)
  rw [List.get_eq_getElem] at hget
  rw [List.getD_eq_getElem?_getD, List.getElem?_eq_getElem h0, Option.getD_some]
  exact hget

end Fetch
